import Mathlib

/-!
Verification development for the stockos warehouse-management backend.

Shallow embedding of the TypeScript sources into Lean 4:

* dates and timestamps are modelled as `Int` milliseconds since the epoch
  (the value of `Date.prototype.getTime`);
* JS `number` quantities are modelled as `Int` (all quantity arithmetic in
  the embedded code is integral); slotting scores, which genuinely use
  fractional arithmetic, are modelled as `ℚ`;
* optional TS fields become `Option`;
* `Array.prototype.sort(cmp)` is stable (ES2019) and, for a consistent
  comparator, its output is the unique stable reordering sorted by the
  total preorder `cmp a b ≤ 0`; it is modelled by the stable insertion
  sort `List.insertionSort (fun a b => cmp a b ≤ 0)`;
* thrown exceptions become `Except`; async handlers are modelled as pure
  functions of their inputs (loggers, tracing spans and wall-clock
  durations are not modelled).
-/

namespace StockOS

/-! ## Domain entities (packages/domain/src/entities) -/

/-- `LotStatus` from `lot-batch.ts`. -/
inductive LotStatus where
  | AVAILABLE
  | QUARANTINE
  | EXPIRED
  | HOLD
  | RELEASED
deriving DecidableEq, Repr

/-- Display string of a lot status, as interpolated into skip reasons. -/
def LotStatus.text : LotStatus → String
  | .AVAILABLE => "AVAILABLE"
  | .QUARANTINE => "QUARANTINE"
  | .EXPIRED => "EXPIRED"
  | .HOLD => "HOLD"
  | .RELEASED => "RELEASED"

/-- `LotBatch` from `lot-batch.ts` (fields not read by the embedded code are
omitted; `expirationDate`, `manufactureDate` and `receivedAt` are epoch
milliseconds). -/
structure LotBatch where
  id : String
  lotNumber : String
  expirationDate : Option Int
  receivedAt : Int
  status : LotStatus
deriving DecidableEq, Repr

/-- `isLotExpired` from `lot-batch.ts`: `lot.expirationDate < referenceDate`. -/
def isLotExpired (lot : LotBatch) (referenceDate : Int) : Bool :=
  match lot.expirationDate with
  | none => false
  | some e => e < referenceDate

/-- `isLotAvailable` from `lot-batch.ts`. -/
def isLotAvailable (lot : LotBatch) (referenceDate : Int) : Bool :=
  if lot.status ≠ LotStatus.AVAILABLE && lot.status ≠ LotStatus.RELEASED then false
  else !isLotExpired lot referenceDate

/-- `compareLotsByFEFO` from `lot-batch.ts`: lots without an expiration date
come last; two dated lots compare by expiration; two undated lots compare by
received date (FIFO fallback). -/
def compareLotsByFEFO (a b : LotBatch) : Int :=
  match a.expirationDate, b.expirationDate with
  | none, none => a.receivedAt - b.receivedAt
  | none, some _ => 1
  | some _, none => -1
  | some x, some y => x - y

/-- `StockLevel` from `stock-level.ts`. -/
structure StockLevel where
  id : String
  tenantId : String
  warehouseId : String
  productId : String
  variantId : Option String
  locationId : String
  lotBatchId : Option String
  quantityOnHand : Int
  quantityReserved : Int
  quantityAvailable : Int
  quantityInbound : Int
  quantityOutbound : Int
  lastMovementAt : Option Int
  rowVersion : Int
deriving DecidableEq, Repr

/-- `calculateAvailableQuantity` from `stock-level.ts`:
`Math.max(0, onHand - reserved)`. -/
def calculateAvailableQuantity (onHand reserved : Int) : Int :=
  max 0 (onHand - reserved)

/-! ## FEFO allocator (packages/domain/src/rules/fefo-allocator.ts) -/

/-- `AllocationRequest` from `fefo-allocator.ts`. -/
structure AllocationRequest where
  productId : String
  variantId : Option String
  requestedQuantity : Int
  warehouseId : String
  referenceType : String
  referenceId : String
  preferredLocations : Option (List String)
  excludedLots : Option (List String)
  minDaysToExpiration : Option Int
deriving DecidableEq, Repr

/-- `InventorySource` from `fefo-allocator.ts`. -/
structure InventorySource where
  stockLevel : StockLevel
  lotBatch : Option LotBatch
deriving DecidableEq, Repr

/-- `AllocationLine` from `fefo-allocator.ts`. -/
structure AllocationLine where
  stockLevelId : String
  locationId : String
  lotBatchId : Option String
  lotNumber : Option String
  expirationDate : Option Int
  quantity : Int
  daysToExpiration : Option Int
deriving DecidableEq, Repr

/-- One entry of `AllocationResult.skippedSources`. -/
structure SkippedSource where
  reason : String
  stockLevelId : String
  lotBatchId : Option String
deriving DecidableEq, Repr

/-- `AllocationResult` from `fefo-allocator.ts`. -/
structure AllocationResult where
  success : Bool
  fullyAllocated : Bool
  requestedQuantity : Int
  allocatedQuantity : Int
  shortfallQuantity : Int
  allocations : List AllocationLine
  skippedSources : List SkippedSource
deriving DecidableEq, Repr

/-- The `FefoAllocator` constructor options: `minDaysToExpiration ?? 0` and
`referenceDate ?? new Date()` are resolved before this record is built. -/
structure FefoAllocator where
  minDaysToExpiration : Int
  referenceDate : Int
deriving DecidableEq, Repr

/-- Integer ceiling division for positive divisors: `Math.ceil(a / b)`. -/
def ceilDiv (a b : Int) : Int :=
  -((-a).fdiv b)

/-- Milliseconds per day, the divisor `1000 * 60 * 60 * 24`. -/
def msPerDay : Int := 86400000

/-- `FefoAllocator.calculateDaysToExpiration`:
`Math.ceil((expirationDate - referenceDate) / 86400000)`. -/
def FefoAllocator.calculateDaysToExpiration (alc : FefoAllocator)
    (expirationDate : Int) : Int :=
  ceilDiv (expirationDate - alc.referenceDate) msPerDay

/-- The product / warehouse / variant filter at the top of
`filterAndSortSources` (an absent request variant, like a falsy one in JS,
disables the variant comparison). -/
def matchesRequest (request : AllocationRequest) (s : InventorySource) : Bool :=
  s.stockLevel.productId == request.productId &&
  s.stockLevel.warehouseId == request.warehouseId &&
  (match request.variantId with
   | none => true
   | some v => s.stockLevel.variantId == some v)

/-- The first comparator of `filterAndSortSources` (preferred locations
first), applied only when `request.preferredLocations` is non-empty. -/
def preferredCompare (preferredLocations : List String)
    (a b : InventorySource) : Int :=
  let aPreferred := preferredLocations.contains a.stockLevel.locationId
  let bPreferred := preferredLocations.contains b.stockLevel.locationId
  if aPreferred && !bPreferred then -1
  else if !aPreferred && bPreferred then 1
  else 0

/-- The second comparator of `filterAndSortSources`: preferred location
first, then `compareLotsByFEFO`; sources with a lot sort before sources
without one; otherwise `0` (the trailing "location pick sequence" comment in
the source is not implemented — the comparator returns `0` there). -/
def fefoCompareSources (request : AllocationRequest)
    (a b : InventorySource) : Int :=
  let aPreferred := (request.preferredLocations.getD []).contains a.stockLevel.locationId
  let bPreferred := (request.preferredLocations.getD []).contains b.stockLevel.locationId
  if aPreferred ≠ bPreferred then (if aPreferred then -1 else 1)
  else
    match a.lotBatch, b.lotBatch with
    | some la, some lb => compareLotsByFEFO la lb
    | some _, none => -1
    | none, some _ => 1
    | none, none => 0

/-- Stable sort by a JS comparator: `a` precedes `b` whenever
`cmp a b ≤ 0`; ES2019 `Array.prototype.sort` is stable, so for a consistent
comparator its output is exactly the stable insertion sort by this
relation. -/
def jsSortInt {α : Type} (cmp : α → α → Int) (l : List α) : List α :=
  List.insertionSort (fun a b => cmp a b ≤ 0) l

/-- `FefoAllocator.filterAndSortSources` (the allocator instance state is
not read by this method: it uses only the request). -/
def filterAndSortSources (request : AllocationRequest)
    (sources : List InventorySource) : List InventorySource :=
  let filtered := sources.filter (matchesRequest request)
  let filtered :=
    match request.preferredLocations with
    | some pl => if pl ≠ [] then jsSortInt (preferredCompare pl) filtered else filtered
    | none => filtered
  jsSortInt (fefoCompareSources request) filtered

/-- The allocation line pushed by the allocation branch of
`FefoAllocator.allocate`. -/
def mkAllocationLine (alc : FefoAllocator) (source : InventorySource)
    (quantity : Int) : AllocationLine :=
  { stockLevelId := source.stockLevel.id
    locationId := source.stockLevel.locationId
    lotBatchId := source.lotBatch.map (·.id)
    lotNumber := source.lotBatch.map (·.lotNumber)
    expirationDate := source.lotBatch.bind (·.expirationDate)
    quantity := quantity
    daysToExpiration :=
      (source.lotBatch.bind (·.expirationDate)).map alc.calculateDaysToExpiration }

/-- The expiration guard of `FefoAllocator.allocate`: the lot has an
expiration date and its days-to-expiration are below the allocator's
`minDaysToExpiration`. -/
def expirationTooClose (alc : FefoAllocator) (lot : LotBatch) : Bool :=
  match lot.expirationDate with
  | none => false
  | some e => decide (alc.calculateDaysToExpiration e < alc.minDaysToExpiration)

/-- The skip reason string of the expiration guard. -/
def tooCloseReason (alc : FefoAllocator) (lot : LotBatch) : String :=
  match lot.expirationDate with
  | none => "Too close to expiration"
  | some e => "Too close to expiration: " ++ toString (alc.calculateDaysToExpiration e) ++ " days"

/-- The source loop of `FefoAllocator.allocate`: walks the filtered and
sorted sources, skipping with a reason or allocating
`min(remainingQty, available)`, and stops as soon as the remaining demand is
`≤ 0`.  Returns `(allocations, skippedSources, remainingQty)`. -/
def FefoAllocator.allocateLoop (alc : FefoAllocator) (request : AllocationRequest) :
    List InventorySource → Int → List AllocationLine × List SkippedSource × Int
  | [], remainingQty => ([], [], remainingQty)
  | source :: rest, remainingQty =>
    if remainingQty ≤ 0 then ([], [], remainingQty)
    else if source.stockLevel.quantityAvailable ≤ 0 then
      let (ls, ks, r) := alc.allocateLoop request rest remainingQty
      (ls, { reason := "No available quantity"
             stockLevelId := source.stockLevel.id
             lotBatchId := source.lotBatch.map (·.id) } :: ks, r)
    else
      match source.lotBatch with
      | some lot =>
        if !isLotAvailable lot alc.referenceDate then
          let (ls, ks, r) := alc.allocateLoop request rest remainingQty
          (ls, { reason := "Lot not available: " ++ lot.status.text
                 stockLevelId := source.stockLevel.id
                 lotBatchId := some lot.id } :: ks, r)
        else if expirationTooClose alc lot then
          let (ls, ks, r) := alc.allocateLoop request rest remainingQty
          (ls, { reason := tooCloseReason alc lot
                 stockLevelId := source.stockLevel.id
                 lotBatchId := some lot.id } :: ks, r)
        else if (request.excludedLots.getD []).contains lot.id then
          let (ls, ks, r) := alc.allocateLoop request rest remainingQty
          (ls, { reason := "Lot excluded by request"
                 stockLevelId := source.stockLevel.id
                 lotBatchId := some lot.id } :: ks, r)
        else
          let q := min remainingQty source.stockLevel.quantityAvailable
          let (ls, ks, r) := alc.allocateLoop request rest (remainingQty - q)
          (mkAllocationLine alc source q :: ls, ks, r)
      | none =>
        let q := min remainingQty source.stockLevel.quantityAvailable
        let (ls, ks, r) := alc.allocateLoop request rest (remainingQty - q)
        (mkAllocationLine alc source q :: ls, ks, r)

/-- `FefoAllocator.allocate`. -/
def FefoAllocator.allocate (alc : FefoAllocator) (request : AllocationRequest)
    (sources : List InventorySource) : AllocationResult :=
  let validSources := filterAndSortSources request sources
  let out := alc.allocateLoop request validSources request.requestedQuantity
  let remainingQty := out.2.2
  let allocatedQuantity := request.requestedQuantity - remainingQty
  { success := decide (0 < allocatedQuantity)
    fullyAllocated := decide (remainingQty = 0)
    requestedQuantity := request.requestedQuantity
    allocatedQuantity := allocatedQuantity
    shortfallQuantity := remainingQty
    allocations := out.1
    skippedSources := out.2.1 }

/-- The optional `options` argument of `allocateWithFefo`. -/
structure FefoOptions where
  minDaysToExpiration : Option Int
  referenceDate : Option Int
deriving DecidableEq, Repr

/-- `allocateWithFefo`: builds a `FefoAllocator` from the options (note that
the request's own `minDaysToExpiration` field is never read) and allocates.
`now` stands for `new Date()`, the default reference date. -/
def allocateWithFefo (request : AllocationRequest)
    (sources : List InventorySource) (options : Option FefoOptions)
    (now : Int) : AllocationResult :=
  let alc : FefoAllocator :=
    { minDaysToExpiration := (options.bind (·.minDaysToExpiration)).getD 0
      referenceDate := (options.bind (·.referenceDate)).getD now }
  alc.allocate request sources

/-! ## Stock-level repository (packages/db/src/repositories/stock-level.repository.ts) -/

/-- The `delta` argument of `StockLevelRepository.updateQuantities`: every
component is optional and defaults to `0` via `?? 0`. -/
structure QuantityDelta where
  onHand : Option Int
  reserved : Option Int
  inbound : Option Int
  outbound : Option Int
deriving DecidableEq, Repr

/-- The two `throw new Error(...)` exits of
`StockLevelRepository.updateQuantities`. -/
inductive StockRepoError where
  | notFound
  | optimisticLockConflict
deriving DecidableEq, Repr

deriving instance DecidableEq for Except

/-- `StockLevelRepository.updateQuantities`: reads the row (`current?` is
the `findUnique` result), throws when missing, throws on a row-version
mismatch, otherwise applies the deltas, stores
`quantityAvailable = newOnHand - newReserved` (the signed difference — the
clamped `calculateAvailableQuantity` helper is not used here), stamps
`lastMovementAt` with the current time and increments `rowVersion`.  No
guard compares the new on-hand quantity against zero. -/
def updateQuantities (current? : Option StockLevel) (delta : QuantityDelta)
    (expectedVersion : Int) (now : Int) : Except StockRepoError StockLevel :=
  match current? with
  | none => .error .notFound
  | some current =>
    if current.rowVersion ≠ expectedVersion then .error .optimisticLockConflict
    else
      let newOnHand := current.quantityOnHand + delta.onHand.getD 0
      let newReserved := current.quantityReserved + delta.reserved.getD 0
      .ok { current with
            quantityOnHand := newOnHand
            quantityReserved := newReserved
            quantityAvailable := newOnHand - newReserved
            quantityInbound := current.quantityInbound + delta.inbound.getD 0
            quantityOutbound := current.quantityOutbound + delta.outbound.getD 0
            lastMovementAt := some now
            rowVersion := current.rowVersion + 1 }

/-! ## Outbox repository (packages/db/src/repositories/outbox.repository.ts) -/

/-- The outbox status strings. -/
inductive OutboxStatus where
  | PENDING
  | PUBLISHED
  | FAILED
deriving DecidableEq, Repr

/-- An `OutboxMessage` row (fields not read by `markAsFailed` are omitted;
`scheduledAt` and `publishedAt` are epoch milliseconds). -/
structure OutboxMessage where
  id : String
  status : OutboxStatus
  retryCount : Nat
  maxRetries : Nat
  lastError : Option String
  scheduledAt : Int
  publishedAt : Option Int
deriving DecidableEq, Repr

/-- `OutboxRepository.markAsFailed` on a found row: increments the retry
count, keeps status `PENDING` while the new count is below `maxRetries` and
moves to `FAILED` otherwise, records the error, and reschedules to
`Date.now() + 2 ^ newRetryCount * 1000` milliseconds. -/
def markAsFailed (m : OutboxMessage) (error : String) (now : Int) : OutboxMessage :=
  let newRetryCount := m.retryCount + 1
  let status := if newRetryCount ≥ m.maxRetries then OutboxStatus.FAILED else OutboxStatus.PENDING
  let backoffSeconds : Int := 2 ^ newRetryCount
  { m with
    status := status
    retryCount := newRetryCount
    lastError := some error
    scheduledAt := now + backoffSeconds * 1000 }

/-! ## Event consumer retry path (apps/worker/src/consumers/event-consumer.ts) -/

/-- What the consumer does with a message whose processing threw. -/
inductive ConsumerAction where
  | requeueDelayedMs (delayMs : Nat)
  | deadLetter
deriving DecidableEq, Repr

/-- The `catch` block of `EventConsumer.handleMessage`: read
`x-retry-count` (absent headers read as `0` via `?? 0`); below `3`, hold the
message for `2 ^ retryCount * 1000` ms and then `nack(msg, false, true)`
(requeue); at `3` or above, `nack(msg, false, false)` (dead-letter). -/
def handleFailure (retryCount : Nat) : ConsumerAction :=
  if retryCount < 3 then .requeueDelayedMs (2 ^ retryCount * 1000)
  else .deadLetter

/-- `(msg.properties.headers?.['x-retry-count'] as number) ?? 0`. -/
def retryCountOfHeader (header : Option Nat) : Nat :=
  header.getD 0

/-- Modelled broker semantics (AMQP `basic.nack` with `requeue = true`
redelivers the message with its headers unchanged, and no code in this
repository ever sets `x-retry-count`): the `x-retry-count` header seen at
the n-th delivery of a message whose every processing attempt throws.  The
initial publishes (outbox dispatcher and the consumer's own re-publish of
derived events) set only `x-tenant-id`/`x-event-type`-style headers, never
`x-retry-count`, so delivery 0 carries `none`, and a requeue leaves the
header as it was. -/
def headerAtDelivery : Nat → Option Nat
  | 0 => none
  | n + 1 => headerAtDelivery n

/-- The consumer's action at the n-th delivery of an always-failing
message. -/
def actionAtDelivery (n : Nat) : ConsumerAction :=
  handleFailure (retryCountOfHeader (headerAtDelivery n))

/-! ## Event envelope (contracts, envelope.ts) -/

/-- `Actor` from the contracts package. -/
structure Actor where
  actorType : String
  id : String
  roles : Option (List String)
deriving DecidableEq, Repr

/-- `EventEnvelope` from the contracts package; `payload` is kept opaque as
its serialized form. -/
structure EventEnvelope where
  event_id : String
  event_type : String
  occurred_at : String
  schema_version : String
  correlation_id : String
  causation_id : Option String
  actor : Actor
  tenant_id : String
  warehouse_id : Option String
  payload : String
deriving DecidableEq, Repr

/-- The AMQP message built by `EventConsumer.handleMessage` when publishing
one derived envelope back to the `stockos.events` exchange. -/
structure PublishedMessage where
  exchange : String
  routingKey : String
  body : EventEnvelope
  persistent : Bool
  contentType : String
  messageId : String
  hTenantId : String
  hEventType : String
  hCorrelationId : String
  hCausationId : String
deriving DecidableEq, Repr

/-- The publish step of `EventConsumer.handleMessage` for a derived
envelope: routing key `event_type.toLowerCase().replace(/_/g, '.')`, body
serialized unchanged, and headers taken from the derived envelope except
`x-causation-id`, which is the inbound envelope's `event_id`. -/
def publishDerived (inbound derived : EventEnvelope) : PublishedMessage :=
  { exchange := "stockos.events"
    routingKey := (derived.event_type.toLower).replace "_" "."
    body := derived
    persistent := true
    contentType := "application/json"
    messageId := derived.event_id
    hTenantId := derived.tenant_id
    hEventType := derived.event_type
    hCorrelationId := derived.correlation_id
    hCausationId := inbound.event_id }

/-! ## Agent runtime (packages/agents/src/runtime) -/

/-- `AgentContext` (the logger is not modelled). -/
structure AgentContext where
  tenantId : String
  warehouseId : Option String
  correlationId : String
deriving DecidableEq, Repr

/-- `AgentResult` (`data` is kept opaque as its serialized form). -/
structure AgentResult where
  success : Bool
  message : String
  data : Option String
  eventsToPublish : Option (List EventEnvelope)
  errors : Option (List String)
deriving DecidableEq, Repr

/-- An agent: the `BaseAgent` contract `{name, description, subscribesTo}`
plus its `handle` behaviour, modelled as a pure function (the `try`/timeout
wrapper of `AgentRunner.executeAgent` turns thrown errors into failure
results, so `run` is total). -/
structure Agent where
  name : String
  description : String
  subscribesTo : List String
  run : EventEnvelope → AgentContext → AgentResult

/-- `AgentRegistry` state: `agents` models the insertion-ordered
`Map<string, BaseAgent>`, `eventSubscriptions` the
`Map<string, Set<string>>`. -/
structure AgentRegistry where
  agents : List (String × Agent)
  eventSubscriptions : List (String × List String)

/-- The empty registry. -/
def AgentRegistry.empty : AgentRegistry :=
  { agents := [], eventSubscriptions := [] }

/-- `Map.set`: replace in place when the key exists (JS maps keep the
original insertion position), append otherwise. -/
def setAssoc {α : Type} : List (String × α) → String → α → List (String × α)
  | [], k, v => [(k, v)]
  | (k', v') :: rest, k, v =>
    if k' = k then (k, v) :: rest else (k', v') :: setAssoc rest k v

/-- `Map.get`. -/
def lookupAssoc {α : Type} : List (String × α) → String → Option α
  | [], _ => none
  | (k', v') :: rest, k => if k' = k then some v' else lookupAssoc rest k

/-- `Map.delete`. -/
def deleteAssoc {α : Type} : List (String × α) → String → List (String × α)
  | [], _ => []
  | (k', v') :: rest, k =>
    if k' = k then rest else (k', v') :: deleteAssoc rest k

/-- One step of `AgentRegistry.register`'s subscription-index loop:
`if (!map.has(t)) map.set(t, new Set()); map.get(t).add(name)`.  Insertion
order of the set is kept; adding an already-present name is a no-op. -/
def addSubscription : List (String × List String) → String → String →
    List (String × List String)
  | [], t, n => [(t, [n])]
  | (t', ns) :: rest, t, n =>
    if t' = t then (t, if ns.contains n then ns else ns ++ [n]) :: rest
    else (t', ns) :: addSubscription rest t n

/-- `AgentRegistry.register`: overwrite the agent entry (with a warning on a
duplicate name, not modelled) and add the agent's name to the subscription
index of each declared event type. -/
def AgentRegistry.register (reg : AgentRegistry) (agent : Agent) : AgentRegistry :=
  { agents := setAssoc reg.agents agent.name agent
    eventSubscriptions :=
      agent.subscribesTo.foldl (fun subs t => addSubscription subs t agent.name)
        reg.eventSubscriptions }

/-- One step of `AgentRegistry.unregister`'s loop:
`eventSubscriptions.get(t)?.delete(name)` (the, possibly emptied, set entry
itself remains). -/
def removeSubscription : List (String × List String) → String → String →
    List (String × List String)
  | [], _, _ => []
  | (t', ns) :: rest, t, n =>
    if t' = t then (t, ns.erase n) :: rest
    else (t', ns) :: removeSubscription rest t n

/-- `AgentRegistry.unregister`: a no-op for an unknown name; otherwise
remove the name from the subscription index of each event type the
currently-registered agent declares, then drop the agent entry. -/
def AgentRegistry.unregister (reg : AgentRegistry) (agentName : String) : AgentRegistry :=
  match lookupAssoc reg.agents agentName with
  | none => reg
  | some agent =>
    { agents := deleteAssoc reg.agents agentName
      eventSubscriptions :=
        agent.subscribesTo.foldl (fun subs t => removeSubscription subs t agentName)
          reg.eventSubscriptions }

/-- `AgentRegistry.getAgent`. -/
def AgentRegistry.getAgent (reg : AgentRegistry) (name : String) : Option Agent :=
  lookupAssoc reg.agents name

/-- The `Set<string>` of `getAgentsForEvent`, built by adding first the
specific subscribers and then the wildcard subscribers (insertion order,
duplicates dropped). -/
def unionNames (specific wildcard : List String) : List String :=
  (specific ++ wildcard).foldl (fun acc n => if acc.contains n then acc else acc ++ [n]) []

/-- `AgentRegistry.getAgentsForEvent`: subscribers of the specific event
type plus subscribers of `*`, resolved through the agents map, dropping
names whose agent entry no longer exists. -/
def AgentRegistry.getAgentsForEvent (reg : AgentRegistry) (eventType : String) :
    List Agent :=
  let specific := (lookupAssoc reg.eventSubscriptions eventType).getD []
  let wildcard := (lookupAssoc reg.eventSubscriptions "*").getD []
  (unionNames specific wildcard).filterMap (lookupAssoc reg.agents)

/-- `AgentRunnerConfig` with the `DEFAULT_CONFIG` values `{10, true, 30000}`
(the timeout only shapes the error message of a timed-out handler and is
otherwise inert in a deterministic model). -/
structure AgentRunnerConfig where
  concurrency : Nat
  continueOnError : Bool
  timeout : Nat
deriving DecidableEq, Repr

/-- `DEFAULT_CONFIG` of `AgentRunner`. -/
def defaultRunnerConfig : AgentRunnerConfig :=
  { concurrency := 10, continueOnError := true, timeout := 30000 }

/-- `AgentExecutionResult` (the wall-clock `duration` is not modelled). -/
structure AgentExecutionResult where
  agentName : String
  result : AgentResult

/-- `AgentRunner.executeAgent` (private overload): run the handler; the
`try`/timeout wrapper is absorbed into the deterministic `run`. -/
def executeAgent (agent : Agent) (event : EventEnvelope)
    (context : AgentContext) : AgentExecutionResult :=
  { agentName := agent.name, result := agent.run event context }

/-- The batch loop of `AgentRunner.executeAgents`: slices of size
`concurrency` are run (in the model: mapped in order — `Promise.all`
preserves order), results are concatenated, and with
`continueOnError = false` the remaining batches are dropped as soon as a
batch contains a failure. -/
def executeAgentBatches (cfg : AgentRunnerConfig) (event : EventEnvelope)
    (context : AgentContext) : List Agent → List AgentExecutionResult
  | [] => []
  | a :: rest =>
    let batch := a :: rest.take (cfg.concurrency - 1)
    let batchResults := batch.map (fun ag => executeAgent ag event context)
    if !cfg.continueOnError && batchResults.any (fun r => !r.result.success) then
      batchResults
    else
      batchResults ++ executeAgentBatches cfg event context (rest.drop (cfg.concurrency - 1))
  termination_by l => l.length
  decreasing_by
    simp only [List.length_cons, List.length_drop]
    omega

/-- `BatchExecutionResult` (wall-clock `totalDuration` is not modelled). -/
structure BatchExecutionResult where
  eventId : String
  eventType : String
  results : List AgentExecutionResult
  successCount : Nat
  failureCount : Nat
  eventsToPublish : List EventEnvelope

/-- `AgentRunner.executeForEvent`: look the agents up in the registry,
return the empty result when none subscribe, otherwise run the batches and
concatenate every returned `eventsToPublish ?? []` — the returned envelopes
are collected as the agents produced them, with no field rewritten. -/
def executeForEvent (reg : AgentRegistry) (cfg : AgentRunnerConfig)
    (event : EventEnvelope) (context : AgentContext) : BatchExecutionResult :=
  let agents := reg.getAgentsForEvent event.event_type
  if agents.isEmpty then
    { eventId := event.event_id, eventType := event.event_type, results := []
      successCount := 0, failureCount := 0, eventsToPublish := [] }
  else
    let results := executeAgentBatches cfg event context agents
    { eventId := event.event_id
      eventType := event.event_type
      results := results
      successCount := (results.filter (fun r => r.result.success)).length
      failureCount := (results.filter (fun r => !r.result.success)).length
      eventsToPublish := results.flatMap (fun r => r.result.eventsToPublish.getD []) }

/-! ## Slotting scorer (packages/domain/src/rules/slotting-scorer.ts) -/

/-- `LocationType` from `location.ts`. -/
inductive LocationType where
  | BULK
  | PICK
  | STAGING
  | RECEIVING
  | SHIPPING
  | QUARANTINE
  | RETURN
  | CROSS_DOCK
deriving DecidableEq, Repr

/-- `TemperatureZone` from `location.ts`. -/
inductive TemperatureZone where
  | AMBIENT
  | CHILLED
  | FROZEN
  | CONTROLLED
deriving DecidableEq, Repr

/-- `ABCClass` from `product.ts`. -/
inductive ABCClass where
  | A
  | B
  | C
deriving DecidableEq, Repr

/-- `Location` from `location.ts` (fields not read by the scorer are
omitted; note the scorer never reads `pickSequence`). -/
structure Location where
  id : String
  zone : String
  locType : LocationType
  temperatureZone : TemperatureZone
  pickSequence : Option Int
  isActive : Bool
  isHazmatCertified : Bool
deriving DecidableEq, Repr

/-- `SlottingCandidate`. -/
structure SlottingCandidate where
  location : Location
  currentUtilization : ℚ
  distanceFromDock : ℚ
  pickFrequency : ℚ
deriving DecidableEq, Repr

/-- `SlottingContext`. -/
structure SlottingContext where
  productAbcClass : Option ABCClass
  temperatureRequired : Option TemperatureZone
  isHazmat : Bool
  quantityToStore : ℚ
  preferredZones : Option (List String)
  excludedLocations : Option (List String)
deriving DecidableEq, Repr

/-- `SlottingWeights`. -/
structure SlottingWeights where
  abcVelocity : ℚ
  proximity : ℚ
  capacity : ℚ
  temperature : ℚ
  fefo : ℚ
  hazard : ℚ
deriving DecidableEq, Repr

/-- `DEFAULT_SLOTTING_WEIGHTS`. -/
def DEFAULT_SLOTTING_WEIGHTS : SlottingWeights :=
  { abcVelocity := 30/100
    proximity := 25/100
    capacity := 20/100
    temperature := 10/100
    fefo := 10/100
    hazard := 5/100 }

/-- The `breakdown` record of a `ScoredLocation`. -/
structure ScoreBreakdown where
  abcVelocityScore : ℚ
  proximityScore : ℚ
  capacityScore : ℚ
  temperatureScore : ℚ
  fefoScore : ℚ
  hazardScore : ℚ
deriving DecidableEq, Repr

/-- `ScoredLocation`. -/
structure ScoredLocation where
  location : Location
  score : ℚ
  breakdown : ScoreBreakdown
deriving DecidableEq, Repr

/-- `SlottingScorer.isLocationValid`. -/
def isLocationValid (location : Location) (context : SlottingContext) : Bool :=
  if !location.isActive then false
  else if (context.excludedLocations.getD []).contains location.id then false
  else if (match context.preferredZones with
           | some zs => zs ≠ [] && !zs.contains location.zone
           | none => false) then false
  else if (match context.temperatureRequired with
           | some t => t ≠ TemperatureZone.AMBIENT && location.temperatureZone ≠ t
           | none => false) then false
  else if context.isHazmat && !location.isHazmatCertified then false
  else true

/-- `SlottingScorer.scoreAbcVelocity` (the unused `abcMultiplier` local of
the source is dropped): class `A` scores the normalized pick frequency,
class `C` its complement, anything else `0.5`. -/
def scoreAbcVelocity (candidate : SlottingCandidate) (context : SlottingContext) : ℚ :=
  let maxFrequency : ℚ := 100
  let normalizedFrequency := min (candidate.pickFrequency / maxFrequency) 1
  match context.productAbcClass with
  | some ABCClass.A => normalizedFrequency
  | some ABCClass.C => 1 - normalizedFrequency
  | _ => 1/2

/-- `Math.max(...allCandidates.map(c => c.distanceFromDock))`, defined on
non-empty candidate lists (the scorer only calls it while mapping over a
subset of `allCandidates`, so the list is never empty there). -/
def maxDistanceFromDock (allCandidates : List SlottingCandidate) : ℚ :=
  match allCandidates.map (·.distanceFromDock) with
  | [] => 0
  | d :: ds => ds.foldl max d

/-- `SlottingScorer.scoreProximity`. -/
def scoreProximity (candidate : SlottingCandidate)
    (allCandidates : List SlottingCandidate) : ℚ :=
  let maxDistance := maxDistanceFromDock allCandidates
  if maxDistance = 0 then 1
  else 1 - candidate.distanceFromDock / maxDistance

/-- `SlottingScorer.scoreCapacity`. -/
def scoreCapacity (candidate : SlottingCandidate) : ℚ :=
  1 - candidate.currentUtilization / 100

/-- `SlottingScorer.scoreTemperature`. -/
def scoreTemperature (location : Location) (context : SlottingContext) : ℚ :=
  match context.temperatureRequired with
  | none => 1/2
  | some t => if location.temperatureZone = t then 1 else 0

/-- `SlottingScorer.scoreFefo`. -/
def scoreFefo (location : Location) : ℚ :=
  if location.locType = LocationType.PICK || location.locType = LocationType.STAGING
  then 1 else 1/2

/-- `SlottingScorer.scoreHazard`. -/
def scoreHazard (location : Location) (context : SlottingContext) : ℚ :=
  if !context.isHazmat then 1
  else if location.isHazmatCertified then 1 else 0

/-- The scored entry built for one valid candidate. -/
def scoreCandidate (weights : SlottingWeights) (context : SlottingContext)
    (allCandidates : List SlottingCandidate)
    (candidate : SlottingCandidate) : ScoredLocation :=
  let breakdown : ScoreBreakdown :=
    { abcVelocityScore := scoreAbcVelocity candidate context
      proximityScore := scoreProximity candidate allCandidates
      capacityScore := scoreCapacity candidate
      temperatureScore := scoreTemperature candidate.location context
      fefoScore := scoreFefo candidate.location
      hazardScore := scoreHazard candidate.location context }
  { location := candidate.location
    score :=
      breakdown.abcVelocityScore * weights.abcVelocity +
      breakdown.proximityScore * weights.proximity +
      breakdown.capacityScore * weights.capacity +
      breakdown.temperatureScore * weights.temperature +
      breakdown.fefoScore * weights.fefo +
      breakdown.hazardScore * weights.hazard
    breakdown := breakdown }

/-- Stable sort by a JS comparator returning a rational difference. -/
def jsSortRat {α : Type} (cmp : α → α → ℚ) (l : List α) : List α :=
  List.insertionSort (fun a b => cmp a b ≤ 0) l

/-- `SlottingScorer.scoreLocations`: filter the valid candidates, score
them, and sort by the comparator `(a, b) => b.score - a.score` — descending
score, with no further tie-break. -/
def scoreLocations (weights : SlottingWeights)
    (candidates : List SlottingCandidate) (context : SlottingContext) :
    List ScoredLocation :=
  let validCandidates := candidates.filter (fun c => isLocationValid c.location context)
  let scored := validCandidates.map (scoreCandidate weights context candidates)
  jsSortRat (fun a b => b.score - a.score) scored

/-! ## Order-theoretic characterization of the FEFO comparator

The comparator `fefoCompareSources` induces a total preorder: it compares
the lexicographic key (preferred-location rank, lot class, date), where the
lot class is `0` for dated lots (keyed by expiration), `1` for undated lots
(keyed by received date), and `2` for sources without a lot. -/

/-- Preferred-location rank of a source: preferred locations sort first. -/
def prefRank (request : AllocationRequest) (s : InventorySource) : Nat :=
  if (request.preferredLocations.getD []).contains s.stockLevel.locationId then 0 else 1

/-- Lot class and date key of a source. -/
def lotKey (s : InventorySource) : Nat × Int :=
  match s.lotBatch with
  | some lot =>
    match lot.expirationDate with
    | some e => (0, e)
    | none => (1, lot.receivedAt)
  | none => (2, 0)

/-- Full sort key of a source. -/
def srcKey (request : AllocationRequest) (s : InventorySource) : Nat × Nat × Int :=
  (prefRank request s, lotKey s)

/-- Lexicographic order on sort keys. -/
def keyLe (k k' : Nat × Nat × Int) : Prop :=
  k.1 < k'.1 ∨ (k.1 = k'.1 ∧ (k.2.1 < k'.2.1 ∨ (k.2.1 = k'.2.1 ∧ k.2.2 ≤ k'.2.2)))

theorem keyLe_trans {k k' k'' : Nat × Nat × Int} (h : keyLe k k') (h' : keyLe k' k'') :
    keyLe k k'' := by
  unfold keyLe at *
  omega

theorem keyLe_total (k k' : Nat × Nat × Int) : keyLe k k' ∨ keyLe k' k := by
  unfold keyLe
  omega

/-- The comparator accepts `a` before `b` exactly when `a`'s key is
lexicographically at most `b`'s. -/
theorem fefoCompare_le_iff (request : AllocationRequest) (a b : InventorySource) :
    fefoCompareSources request a b ≤ 0 ↔ keyLe (srcKey request a) (srcKey request b) := by
  rcases ha : a.lotBatch with _ | la <;> rcases hb : b.lotBatch with _ | lb <;>
    by_cases hpa : a.stockLevel.locationId ∈ request.preferredLocations.getD [] <;>
    by_cases hpb : b.stockLevel.locationId ∈ request.preferredLocations.getD []
  all_goals try rcases hea : la.expirationDate with _ | ea
  all_goals try rcases heb : lb.expirationDate with _ | eb
  all_goals
    simp [fefoCompareSources, srcKey, prefRank, lotKey, keyLe, compareLotsByFEFO,
      ha, hb, hpa, hpb]
  all_goals try simp [hea]
  all_goals try simp [heb]

/-- The ordering relation realized by the final sort of
`filterAndSortSources`. -/
def fefoLe (request : AllocationRequest) (a b : InventorySource) : Prop :=
  fefoCompareSources request a b ≤ 0

instance (request : AllocationRequest) : DecidableRel (fefoLe request) :=
  fun a b => inferInstanceAs (Decidable (fefoCompareSources request a b ≤ 0))

theorem fefoLe_refl (request : AllocationRequest) (a : InventorySource) :
    fefoLe request a a := by
  rw [fefoLe, fefoCompare_le_iff]
  unfold keyLe
  omega

theorem fefoLe_trans (request : AllocationRequest) {a b c : InventorySource}
    (hab : fefoLe request a b) (hbc : fefoLe request b c) : fefoLe request a c := by
  rw [fefoLe, fefoCompare_le_iff] at *
  exact keyLe_trans hab hbc

theorem fefoLe_total (request : AllocationRequest) (a b : InventorySource) :
    fefoLe request a b ∨ fefoLe request b a := by
  rw [fefoLe, fefoLe, fefoCompare_le_iff, fefoCompare_le_iff]
  exact keyLe_total _ _

theorem filterAndSortSources_pairwise (request : AllocationRequest)
    (sources : List InventorySource) :
    (filterAndSortSources request sources).Pairwise (fefoLe request) := by
  unfold filterAndSortSources jsSortInt
  letI : IsTotal InventorySource (fefoLe request) := ⟨fefoLe_total request⟩
  letI : IsTrans InventorySource (fefoLe request) := ⟨fun _ _ _ => fefoLe_trans request⟩
  exact List.sorted_insertionSort (fefoLe request) _

theorem filterAndSortSources_perm (request : AllocationRequest)
    (sources : List InventorySource) :
    (filterAndSortSources request sources).Perm
      (sources.filter (matchesRequest request)) := by
  unfold filterAndSortSources jsSortInt
  rcases h : request.preferredLocations with _ | pl <;> simp only [h]
  · exact List.perm_insertionSort _ _
  · by_cases hpl : pl = []
    · rw [if_neg (by simp [hpl])]
      exact List.perm_insertionSort _ _
    · rw [if_pos hpl]
      exact (List.perm_insertionSort _ _).trans (List.perm_insertionSort _ _)

/-- In a `Pairwise r` list containing `a` and `b` with `¬ r b a` (and `r`
reflexive at `a`), `a` occurs strictly before `b`. -/
theorem pairwise_middle {α : Type} {r : α → α → Prop} {l : List α} {a b : α}
    (hp : l.Pairwise r) (ha : a ∈ l) (hb : b ∈ l) (hrefl : r a a)
    (hnot : ¬ r b a) :
    ∃ xs ys, l = xs ++ a :: ys ∧ b ∈ ys := by
  induction l with
  | nil => cases ha
  | cons h t ih =>
    rw [List.pairwise_cons] at hp
    obtain ⟨hht, hpt⟩ := hp
    rcases List.mem_cons.mp ha with rfl | hat
    · rcases List.mem_cons.mp hb with rfl | hbt
      · exact absurd hrefl hnot
      · exact ⟨[], t, rfl, hbt⟩
    · rcases List.mem_cons.mp hb with rfl | hbt
      · exact absurd (hht a hat) hnot
      · obtain ⟨xs, ys, rfl, hbys⟩ := ih hpt hat hbt
        exact ⟨h :: xs, ys, rfl, hbys⟩

/-! ## Behaviour of the allocation loop -/

/-- A source survives every runtime guard of the allocation loop: positive
availability; if it has a lot, the lot is pickable at the reference date,
not too close to expiration, and not excluded by the request. -/
def passesFilters (alc : FefoAllocator) (request : AllocationRequest)
    (s : InventorySource) : Bool :=
  decide (0 < s.stockLevel.quantityAvailable) &&
  (match s.lotBatch with
   | none => true
   | some lot =>
     isLotAvailable lot alc.referenceDate &&
     !expirationTooClose alc lot &&
     !(request.excludedLots.getD []).contains lot.id)

/-- With no remaining demand the loop stops at once. -/
theorem allocateLoop_nonpos (alc : FefoAllocator) (request : AllocationRequest)
    (l : List InventorySource) (rem : Int) (h : rem ≤ 0) :
    alc.allocateLoop request l rem = ([], [], rem) := by
  cases l <;> simp [FefoAllocator.allocateLoop, h]

/-- A head source that passes every guard is allocated
`min(remaining, available)` and the loop continues on the reduced demand. -/
theorem allocateLoop_cons_pass (alc : FefoAllocator) (request : AllocationRequest)
    (s : InventorySource) (rest : List InventorySource) (rem : Int)
    (hrem : 0 < rem) (hpass : passesFilters alc request s = true) :
    alc.allocateLoop request (s :: rest) rem =
      ((mkAllocationLine alc s (min rem s.stockLevel.quantityAvailable)) ::
          (alc.allocateLoop request rest
            (rem - min rem s.stockLevel.quantityAvailable)).1,
        (alc.allocateLoop request rest
            (rem - min rem s.stockLevel.quantityAvailable)).2.1,
        (alc.allocateLoop request rest
            (rem - min rem s.stockLevel.quantityAvailable)).2.2) := by
  have hrem' : ¬ rem ≤ 0 := not_le.mpr hrem
  rcases hlot : s.lotBatch with _ | lot
  · have hav : 0 < s.stockLevel.quantityAvailable := by
      simp only [passesFilters, hlot, Bool.and_eq_true, decide_eq_true_eq] at hpass
      exact hpass.1
    simp [FefoAllocator.allocateLoop, hlot, hrem', not_le.mpr hav]
  · simp only [passesFilters, hlot, Bool.and_eq_true, decide_eq_true_eq] at hpass
    obtain ⟨hav, ⟨⟨hlotok, hexp⟩, hexcl⟩⟩ := hpass
    have hexp2 : expirationTooClose alc lot = false := by
      revert hexp; cases expirationTooClose alc lot <;> simp
    have hexcl2 : (request.excludedLots.getD []).contains lot.id = false := by
      revert hexcl; cases (request.excludedLots.getD []).contains lot.id <;> simp
    have hexcl3 : lot.id ∉ request.excludedLots.getD [] := by simpa using hexcl2
    simp [FefoAllocator.allocateLoop, hlot, hrem', not_le.mpr hav,
      hlotok, hexp2, hexcl3]

/-- The lines produced on a cons with positive demand: either the head is
skipped (lines unchanged) or the head is allocated
`min(remaining, available)`. -/
theorem allocateLoop_cons_lines (alc : FefoAllocator) (request : AllocationRequest)
    (s : InventorySource) (rest : List InventorySource) (rem : Int)
    (hrem : 0 < rem) :
    (alc.allocateLoop request (s :: rest) rem).1 =
      (alc.allocateLoop request rest rem).1 ∨
    (alc.allocateLoop request (s :: rest) rem).1 =
      mkAllocationLine alc s (min rem s.stockLevel.quantityAvailable) ::
        (alc.allocateLoop request rest
          (rem - min rem s.stockLevel.quantityAvailable)).1 := by
  rcases hlot : s.lotBatch with _ | lot <;>
    simp only [FefoAllocator.allocateLoop, hlot, if_neg (not_le.mpr hrem)]
  · split
    · left; rfl
    · right; rfl
  · split
    · left; rfl
    · split
      · left; rfl
      · split
        · left; rfl
        · split
          · left; rfl
          · right; rfl

/-- If the loop, run on `xs ++ a :: ys` where no source of `xs` carries the
stock-level id `bId` and `a` passes every guard, emits a line for `bId`,
then it also emits a line that drains `a` completely. -/
theorem allocateLoop_full_before (alc : FefoAllocator) (request : AllocationRequest)
    (bId : String) (a : InventorySource)
    (hpass : passesFilters alc request a = true)
    (haId : a.stockLevel.id ≠ bId) :
    ∀ (xs ys : List InventorySource) (rem : Int),
      (∀ x ∈ xs, x.stockLevel.id ≠ bId) →
      (∃ line ∈ (alc.allocateLoop request (xs ++ a :: ys) rem).1,
        line.stockLevelId = bId) →
      ∃ line ∈ (alc.allocateLoop request (xs ++ a :: ys) rem).1,
        line.stockLevelId = a.stockLevel.id ∧
        line.quantity = a.stockLevel.quantityAvailable := by
  intro xs
  induction xs with
  | nil =>
    intro ys rem _ hex
    simp only [List.nil_append] at hex ⊢
    by_cases hrem : 0 < rem
    · rw [allocateLoop_cons_pass alc request a ys rem hrem hpass] at hex ⊢
      obtain ⟨line, hmem, hlid⟩ := hex
      rcases List.mem_cons.mp hmem with rfl | hsub
      · exact absurd hlid haId
      · by_cases hrem2 : rem - min rem a.stockLevel.quantityAvailable ≤ 0
        · rw [allocateLoop_nonpos alc request ys _ hrem2] at hsub
          cases hsub
        · have hqa : min rem a.stockLevel.quantityAvailable =
              a.stockLevel.quantityAvailable := by omega
          exact ⟨mkAllocationLine alc a (min rem a.stockLevel.quantityAvailable),
            List.mem_cons_self _ _, rfl, by simp [mkAllocationLine, hqa]⟩
    · rw [allocateLoop_nonpos alc request _ rem (not_lt.mp hrem)] at hex
      obtain ⟨line, hmem, _⟩ := hex
      cases hmem
  | cons x xs ih =>
    intro ys rem hxs hex
    simp only [List.cons_append] at hex ⊢
    by_cases hrem : 0 < rem
    · have hxId : x.stockLevel.id ≠ bId := hxs x (List.mem_cons_self _ _)
      have hxs' : ∀ z ∈ xs, z.stockLevel.id ≠ bId :=
        fun z hz => hxs z (List.mem_cons_of_mem _ hz)
      rcases allocateLoop_cons_lines alc request x (xs ++ a :: ys) rem hrem with heq | heq
      · rw [heq] at hex ⊢
        exact ih ys rem hxs' hex
      · rw [heq] at hex ⊢
        obtain ⟨line, hmem, hlid⟩ := hex
        rcases List.mem_cons.mp hmem with rfl | hsub
        · exact absurd hlid hxId
        · obtain ⟨l2, hm2, h2⟩ :=
            ih ys (rem - min rem x.stockLevel.quantityAvailable) hxs' ⟨line, hsub, hlid⟩
          exact ⟨l2, List.mem_cons_of_mem _ hm2, h2⟩
    · rw [allocateLoop_nonpos alc request _ rem (not_lt.mp hrem)] at hex
      obtain ⟨line, hmem, _⟩ := hex
      cases hmem

/-- Unfolding lemma: the allocation lines of `allocate` are those of the
loop run on the filtered and sorted sources with the requested quantity. -/
theorem allocate_allocations (alc : FefoAllocator) (request : AllocationRequest)
    (sources : List InventorySource) :
    (alc.allocate request sources).allocations =
      (alc.allocateLoop request (filterAndSortSources request sources)
        request.requestedQuantity).1 := rfl

/-- C1 — FEFO ordering and monotonicity.  The allocator's candidate order is
the total preorder `fefoLe` (preferred locations first, then FEFO: earlier
expiration first, dated lots before undated ones, undated lots by received
date, lot-tracked sources before lot-less ones).  When the request names no
preferred locations (the claim's blanket consequence fails with them — see
the counterexample), a filter-passing source with an earlier-expiring lot is
drained completely before any allocation line draws from a later-expiring
lot: if `b` (expiring at `eb`) received a line, then `a` (expiring at
`ea < eb`) received a line for its entire available quantity. -/
theorem fefo_ordering_and_monotonicity
    (alc : FefoAllocator) (request : AllocationRequest)
    (sources : List InventorySource) (a b : InventorySource)
    (la lb : LotBatch) (ea eb : Int)
    (hpref : request.preferredLocations = none)
    (hnodup : (sources.map (fun s => s.stockLevel.id)).Nodup)
    (ha : a ∈ sources) (hb : b ∈ sources)
    (hma : matchesRequest request a = true)
    (hmb : matchesRequest request b = true)
    (hla : a.lotBatch = some la) (hlb : b.lotBatch = some lb)
    (hea : la.expirationDate = some ea) (heb : lb.expirationDate = some eb)
    (hlt : ea < eb)
    (hpass : passesFilters alc request a = true)
    (hballoc : ∃ line ∈ (alc.allocate request sources).allocations,
        line.stockLevelId = b.stockLevel.id) :
    (filterAndSortSources request sources).Pairwise (fefoLe request) ∧
    ∃ line ∈ (alc.allocate request sources).allocations,
      line.stockLevelId = a.stockLevel.id ∧
      line.quantity = a.stockLevel.quantityAvailable := by
  refine ⟨filterAndSortSources_pairwise request sources, ?_⟩
  have hperm := filterAndSortSources_perm request sources
  have hal : a ∈ filterAndSortSources request sources :=
    hperm.mem_iff.mpr (List.mem_filter.mpr ⟨ha, hma⟩)
  have hbl : b ∈ filterAndSortSources request sources :=
    hperm.mem_iff.mpr (List.mem_filter.mpr ⟨hb, hmb⟩)
  have hnotba : ¬ fefoLe request b a := by
    rw [fefoLe, fefoCompare_le_iff]
    unfold keyLe srcKey prefRank lotKey
    simp only [hpref, hla, hlb, hea, heb, Option.getD_none, List.contains_nil]
    simp
    omega
  obtain ⟨xs, ys, hldec, hbys⟩ :=
    pairwise_middle (filterAndSortSources_pairwise request sources) hal hbl
      (fefoLe_refl request a) hnotba
  have hnodupf :
      ((sources.filter (matchesRequest request)).map (fun s => s.stockLevel.id)).Nodup :=
    List.Nodup.sublist ((List.filter_sublist sources).map _) hnodup
  have hnodupl :
      ((filterAndSortSources request sources).map (fun s => s.stockLevel.id)).Nodup :=
    ((hperm.map _).nodup_iff).mpr hnodupf
  rw [hldec, List.map_append, List.map_cons] at hnodupl
  obtain ⟨-, h2, hdisj⟩ := List.nodup_append.mp hnodupl
  have hbysid : b.stockLevel.id ∈ ys.map (fun s => s.stockLevel.id) :=
    List.mem_map.mpr ⟨b, hbys, rfl⟩
  have haneb : a.stockLevel.id ≠ b.stockLevel.id := by
    intro hEq
    rw [List.nodup_cons] at h2
    exact h2.1 (hEq ▸ hbysid)
  have hxsid : ∀ x ∈ xs, x.stockLevel.id ≠ b.stockLevel.id := by
    intro x hx hEq
    exact hdisj (List.mem_map.mpr ⟨x, hx, rfl⟩)
      (hEq ▸ List.mem_cons_of_mem _ hbysid)
  rw [allocate_allocations, hldec] at hballoc ⊢
  exact allocateLoop_full_before alc request b.stockLevel.id a hpass haneb
    xs ys request.requestedQuantity hxsid hballoc

/-- On a cons with positive remaining demand the loop either skips the head
(same lines and final remainder, one more skip entry) or allocates
`min(remaining, available)` from a head with positive availability. -/
theorem allocateLoop_cons_cases (alc : FefoAllocator) (request : AllocationRequest)
    (s : InventorySource) (rest : List InventorySource) (rem : Int)
    (hrem : 0 < rem) :
    (∃ sk, alc.allocateLoop request (s :: rest) rem =
      ((alc.allocateLoop request rest rem).1,
        sk :: (alc.allocateLoop request rest rem).2.1,
        (alc.allocateLoop request rest rem).2.2)) ∨
    (0 < s.stockLevel.quantityAvailable ∧
      alc.allocateLoop request (s :: rest) rem =
        (mkAllocationLine alc s (min rem s.stockLevel.quantityAvailable) ::
            (alc.allocateLoop request rest
              (rem - min rem s.stockLevel.quantityAvailable)).1,
          (alc.allocateLoop request rest
              (rem - min rem s.stockLevel.quantityAvailable)).2.1,
          (alc.allocateLoop request rest
              (rem - min rem s.stockLevel.quantityAvailable)).2.2)) := by
  rcases hlot : s.lotBatch with _ | lot <;>
    simp only [FefoAllocator.allocateLoop, hlot, if_neg (not_le.mpr hrem)]
  · split
    · exact Or.inl ⟨_, rfl⟩
    · rename_i hav
      exact Or.inr ⟨by omega, rfl⟩
  · split
    · exact Or.inl ⟨_, rfl⟩
    · rename_i hav
      split
      · exact Or.inl ⟨_, rfl⟩
      · split
        · exact Or.inl ⟨_, rfl⟩
        · split
          · exact Or.inl ⟨_, rfl⟩
          · exact Or.inr ⟨by omega, rfl⟩

/-- Loop invariant: starting from a nonnegative demand, the final remainder
stays within `[0, rem]` and the emitted line quantities sum to exactly the
consumed demand. -/
theorem allocateLoop_invariant (alc : FefoAllocator) (request : AllocationRequest) :
    ∀ (l : List InventorySource) (rem : Int), 0 ≤ rem →
      0 ≤ (alc.allocateLoop request l rem).2.2 ∧
      (alc.allocateLoop request l rem).2.2 ≤ rem ∧
      ((alc.allocateLoop request l rem).1.map (fun line => line.quantity)).sum =
        rem - (alc.allocateLoop request l rem).2.2 := by
  intro l
  induction l with
  | nil =>
    intro rem hrem
    simp [FefoAllocator.allocateLoop, hrem]
  | cons s rest ih =>
    intro rem hrem
    by_cases hpos : 0 < rem
    · rcases allocateLoop_cons_cases alc request s rest rem hpos with ⟨sk, heq⟩ | ⟨hav, heq⟩
      · rw [heq]
        exact ih rem hrem
      · rw [heq]
        dsimp only
        have hq : 0 ≤ rem - min rem s.stockLevel.quantityAvailable := by omega
        obtain ⟨h0, hle, hsum⟩ := ih (rem - min rem s.stockLevel.quantityAvailable) hq
        refine ⟨h0, by omega, ?_⟩
        simp only [List.map_cons, List.sum_cons, hsum, mkAllocationLine]
        omega
    · have hz : rem ≤ 0 := by omega
      rw [allocateLoop_nonpos alc request _ rem hz]
      exact ⟨hrem, le_refl rem, by simp⟩

/-! ## Concrete fixtures used by witnesses and counterexamples -/

/-- A lot-tracked stock level at location `LOC-A` with 5 available units. -/
def fefoSLA : StockLevel :=
  { id := "SL-A", tenantId := "t", warehouseId := "W1", productId := "P1"
    variantId := none, locationId := "LOC-A", lotBatchId := some "L1"
    quantityOnHand := 5, quantityReserved := 0, quantityAvailable := 5
    quantityInbound := 0, quantityOutbound := 0, lastMovementAt := none
    rowVersion := 1 }

/-- A lot expiring two days after the reference date. -/
def fefoLotA : LotBatch :=
  { id := "L1", lotNumber := "LOT1", expirationDate := some (2 * msPerDay)
    receivedAt := 0, status := .AVAILABLE }

/-- A second stock level at location `LOC-B`. -/
def fefoSLB : StockLevel :=
  { fefoSLA with id := "SL-B", locationId := "LOC-B", lotBatchId := some "L2" }

/-- A lot expiring five days after the reference date. -/
def fefoLotB : LotBatch :=
  { fefoLotA with id := "L2", lotNumber := "LOT2", expirationDate := some (5 * msPerDay) }

/-- The earlier-expiring source. -/
def fefoSrcA : InventorySource := ⟨fefoSLA, some fefoLotA⟩

/-- The later-expiring source. -/
def fefoSrcB : InventorySource := ⟨fefoSLB, some fefoLotB⟩

/-- A plain request for 7 units with no preferences or exclusions. -/
def fefoReq : AllocationRequest :=
  { productId := "P1", variantId := none, requestedQuantity := 7
    warehouseId := "W1", referenceType := "SalesOrder", referenceId := "SO-1"
    preferredLocations := none, excludedLots := none, minDaysToExpiration := none }

/-- An allocator with the default `minDaysToExpiration = 0` and reference
date 0. -/
def fefoAlc : FefoAllocator := { minDaysToExpiration := 0, referenceDate := 0 }

/-- The same request for one unit but preferring the later-expiring lot's
location. -/
def fefoReqPref : AllocationRequest :=
  { fefoReq with requestedQuantity := 1, preferredLocations := some ["LOC-B"] }

/-! ## C1 — FEFO ordering and monotonicity -/

/-- C1 witness: on the concrete two-source scenario (demand 7, supplies
5 + 5, distinct expirations, no preferred locations) the later-expiring
source received a line, and the theorem yields a line draining the
earlier-expiring source completely. -/
theorem fefo_ordering_and_monotonicity_witness :
    fefoReq.preferredLocations = none ∧
    (([fefoSrcB, fefoSrcA].map (fun s => s.stockLevel.id)).Nodup) ∧
    passesFilters fefoAlc fefoReq fefoSrcA = true ∧
    (∃ line ∈ (fefoAlc.allocate fefoReq [fefoSrcB, fefoSrcA]).allocations,
      line.stockLevelId = fefoSrcB.stockLevel.id) ∧
    ((filterAndSortSources fefoReq [fefoSrcB, fefoSrcA]).Pairwise (fefoLe fefoReq) ∧
     ∃ line ∈ (fefoAlc.allocate fefoReq [fefoSrcB, fefoSrcA]).allocations,
       line.stockLevelId = fefoSrcA.stockLevel.id ∧
       line.quantity = fefoSrcA.stockLevel.quantityAvailable) :=
  ⟨rfl, by decide, by decide, by decide,
   fefo_ordering_and_monotonicity fefoAlc fefoReq [fefoSrcB, fefoSrcA]
     fefoSrcA fefoSrcB fefoLotA fefoLotB (2 * msPerDay) (5 * msPerDay)
     rfl (by decide) (by decide) (by decide) (by decide) (by decide)
     rfl rfl rfl rfl (by decide) (by decide) (by decide)⟩

/-- C1 counterexample: with `preferredLocations = ["LOC-B"]` the single
allocation line draws from the later-expiring lot `L2` while the
earlier-expiring, filter-passing source `SL-A` still has its 5 available
units — preferred locations override FEFO, so the claim's blanket
monotonicity consequence is false as stated. -/
theorem fefo_monotonicity_counterexample :
    matchesRequest fefoReqPref fefoSrcA = true ∧
    passesFilters fefoAlc fefoReqPref fefoSrcA = true ∧
    fefoSrcA.stockLevel.quantityAvailable = 5 ∧
    fefoLotA.expirationDate = some (2 * msPerDay) ∧
    fefoLotB.expirationDate = some (5 * msPerDay) ∧
    ((2 * msPerDay : Int) < 5 * msPerDay) ∧
    (fefoAlc.allocate fefoReqPref [fefoSrcB, fefoSrcA]).allocations.map
      (fun l => (l.stockLevelId, l.lotBatchId, l.quantity)) =
        [("SL-B", some "L2", 1)] := by
  decide

/-! ## C8 — FEFO totality and result shape -/

/-- C8 (amended with `0 ≤ requestedQuantity`) — `allocate` is a total
function of its inputs (it never raises); its lines sum to the allocated
quantity, which is at most the request; allocated + shortfall equals the
request; the shortfall is nonnegative; and `fullyAllocated` holds exactly
when the shortfall is zero (a partial allocation is an ordinary result with
a positive `shortfallQuantity`). -/
theorem fefo_allocate_total_and_shape (alc : FefoAllocator)
    (request : AllocationRequest) (sources : List InventorySource)
    (hreq : 0 ≤ request.requestedQuantity) :
    ((alc.allocate request sources).allocations.map (fun l => l.quantity)).sum ≤
      request.requestedQuantity ∧
    (alc.allocate request sources).allocatedQuantity +
      (alc.allocate request sources).shortfallQuantity =
      request.requestedQuantity ∧
    0 ≤ (alc.allocate request sources).shortfallQuantity ∧
    ((alc.allocate request sources).fullyAllocated = true ↔
      (alc.allocate request sources).shortfallQuantity = 0) ∧
    ((alc.allocate request sources).allocations.map (fun l => l.quantity)).sum =
      (alc.allocate request sources).allocatedQuantity := by
  obtain ⟨h0, hle, hsum⟩ := allocateLoop_invariant alc request
    (filterAndSortSources request sources) request.requestedQuantity hreq
  simp only [FefoAllocator.allocate]
  refine ⟨by omega, by omega, h0, ?_, by omega⟩
  simp [decide_eq_true_iff]

/-- C8 witness at the concrete scenario (requested 7, supplies 5 + 5). -/
theorem fefo_allocate_total_and_shape_witness :
    (0 ≤ fefoReq.requestedQuantity) ∧
    (((fefoAlc.allocate fefoReq [fefoSrcB, fefoSrcA]).allocations.map
        (fun l => l.quantity)).sum ≤ fefoReq.requestedQuantity ∧
      (fefoAlc.allocate fefoReq [fefoSrcB, fefoSrcA]).allocatedQuantity +
        (fefoAlc.allocate fefoReq [fefoSrcB, fefoSrcA]).shortfallQuantity =
        fefoReq.requestedQuantity ∧
      0 ≤ (fefoAlc.allocate fefoReq [fefoSrcB, fefoSrcA]).shortfallQuantity ∧
      ((fefoAlc.allocate fefoReq [fefoSrcB, fefoSrcA]).fullyAllocated = true ↔
        (fefoAlc.allocate fefoReq [fefoSrcB, fefoSrcA]).shortfallQuantity = 0) ∧
      ((fefoAlc.allocate fefoReq [fefoSrcB, fefoSrcA]).allocations.map
        (fun l => l.quantity)).sum =
        (fefoAlc.allocate fefoReq [fefoSrcB, fefoSrcA]).allocatedQuantity) :=
  ⟨by decide,
   fefo_allocate_total_and_shape fefoAlc fefoReq [fefoSrcB, fefoSrcA] (by decide)⟩

/-- C8 counterexample: at a request for `-1` units (the `number` type of the
request does not exclude it, and the allocator handles it without raising)
the allocation lines sum to `0`, which is **not** at most the requested
quantity, so the universally-quantified sum bound of the claim fails as
stated. -/
theorem fefo_allocate_sum_counterexample :
    ¬ (((fefoAlc.allocate { fefoReq with requestedQuantity := -1 } []).allocations.map
        (fun l => l.quantity)).sum ≤
          ({ fefoReq with requestedQuantity := -1 } : AllocationRequest).requestedQuantity) := by
  decide

/-! ## C9 — the request-level expiry filter is never read -/

/-- A lot expiring three days after the reference date. -/
def fefoLotC : LotBatch :=
  { fefoLotA with id := "L9", lotNumber := "LOT9", expirationDate := some (3 * msPerDay) }

/-- Its stock level. -/
def fefoSLC : StockLevel :=
  { fefoSLA with id := "SL-9", lotBatchId := some "L9" }

/-- A request that asks for `minDaysToExpiration = 7`. -/
def fefoReqC9 : AllocationRequest :=
  { fefoReq with requestedQuantity := 2, minDaysToExpiration := some 7 }

/-- C9 — the code bug, evaluated: the request carries
`minDaysToExpiration = 7` and the candidate lot expires in 3 days, yet
`allocateWithFefo` (called exactly as `ReservationAgent` calls it, with no
options) allocates from that lot and skips nothing, because the allocator
reads only its constructor option (default 0) and never the request field.
Had the allocator been constructed with `minDaysToExpiration = 7`, the same
source would have been skipped. -/
theorem fefo_request_minDays_ignored :
    fefoReqC9.minDaysToExpiration = some 7 ∧
    fefoAlc.calculateDaysToExpiration (3 * msPerDay) = 3 ∧
    (allocateWithFefo fefoReqC9 [⟨fefoSLC, some fefoLotC⟩] none 0).allocations.map
      (fun l => (l.stockLevelId, l.quantity)) = [("SL-9", 2)] ∧
    (allocateWithFefo fefoReqC9 [⟨fefoSLC, some fefoLotC⟩] none 0).skippedSources = [] ∧
    (FefoAllocator.allocate { minDaysToExpiration := 7, referenceDate := 0 }
      fefoReqC9 [⟨fefoSLC, some fefoLotC⟩]).allocations = [] ∧
    (FefoAllocator.allocate { minDaysToExpiration := 7, referenceDate := 0 }
      fefoReqC9 [⟨fefoSLC, some fefoLotC⟩]).skippedSources.map
        (fun sk => sk.stockLevelId) = ["SL-9"] := by
  decide

/-! ## C2 — optimistic stock mutation -/

/-- C2 (amended: the stored available quantity is the signed difference
`on_hand − reserved`, not `max(0, …)`) — `updateQuantities` on an existing
row fails with the optimistic-lock conflict exactly when the stored row
version differs from the expected one; otherwise it applies the four deltas,
stores `available = on_hand − reserved`, increments the row version by one
and stamps the last-movement timestamp. -/
theorem updateQuantities_spec (current : StockLevel) (delta : QuantityDelta)
    (expectedVersion now : Int) :
    (current.rowVersion ≠ expectedVersion →
      updateQuantities (some current) delta expectedVersion now =
        .error .optimisticLockConflict) ∧
    (current.rowVersion = expectedVersion →
      updateQuantities (some current) delta expectedVersion now = .ok
        { current with
          quantityOnHand := current.quantityOnHand + delta.onHand.getD 0
          quantityReserved := current.quantityReserved + delta.reserved.getD 0
          quantityAvailable :=
            (current.quantityOnHand + delta.onHand.getD 0) -
              (current.quantityReserved + delta.reserved.getD 0)
          quantityInbound := current.quantityInbound + delta.inbound.getD 0
          quantityOutbound := current.quantityOutbound + delta.outbound.getD 0
          lastMovementAt := some now
          rowVersion := current.rowVersion + 1 }) := by
  constructor <;> intro h <;> simp [updateQuantities, h]

/-- A row with 1 on hand, nothing reserved, at version 1. -/
def stockRow1 : StockLevel :=
  { fefoSLA with
    id := "SL-R"
    lotBatchId := none
    quantityOnHand := 1
    quantityAvailable := 1 }

/-- A delta reserving 3 units. -/
def reserveDelta3 : QuantityDelta :=
  { onHand := none, reserved := some 3, inbound := none, outbound := none }

/-- C2 witness: at the concrete row, a stale expected version conflicts, and
the matching version applies the delta with the signed available. -/
theorem updateQuantities_spec_witness :
    updateQuantities (some stockRow1) reserveDelta3 2 1000 =
      .error .optimisticLockConflict ∧
    updateQuantities (some stockRow1) reserveDelta3 1 1000 = .ok
      { stockRow1 with
        quantityOnHand := stockRow1.quantityOnHand + reserveDelta3.onHand.getD 0
        quantityReserved := stockRow1.quantityReserved + reserveDelta3.reserved.getD 0
        quantityAvailable :=
          (stockRow1.quantityOnHand + reserveDelta3.onHand.getD 0) -
            (stockRow1.quantityReserved + reserveDelta3.reserved.getD 0)
        quantityInbound := stockRow1.quantityInbound + reserveDelta3.inbound.getD 0
        quantityOutbound := stockRow1.quantityOutbound + reserveDelta3.outbound.getD 0
        lastMovementAt := some 1000
        rowVersion := stockRow1.rowVersion + 1 } :=
  ⟨(updateQuantities_spec stockRow1 reserveDelta3 2 1000).1 (by decide),
   (updateQuantities_spec stockRow1 reserveDelta3 1 1000).2 (by decide)⟩

/-- C2 counterexample: reserving 3 against 1 on hand stores
`available = -2`, whereas the claim's `max(0, on_hand − reserved)` (the
unused entity helper `calculateAvailableQuantity`) gives `0`. -/
theorem updateQuantities_available_not_clamped :
    (updateQuantities (some stockRow1) reserveDelta3 1 1000).map
      (fun r => r.quantityAvailable) = .ok (-2) ∧
    calculateAvailableQuantity (1 + 0) (0 + 3) = 0 ∧
    ((-2 : Int) ≠ 0) := by
  decide

/-! ## C6 — negative stock is not blocked -/

/-- A row with 3 on hand at version 1. -/
def stockRow3 : StockLevel :=
  { stockRow1 with quantityOnHand := 3, quantityAvailable := 3 }

/-- C6 — the code bug, evaluated: decrementing 5 from 3 on hand (no
override flag exists in the API at all) succeeds and stores
`quantityOnHand = -2`; no `NEGATIVE_STOCK_BLOCKED` error is raised by any
repository path, although the error class exists in the contracts
package. -/
theorem negative_onHand_not_blocked :
    (updateQuantities (some stockRow3)
      { onHand := some (-5), reserved := none, inbound := none, outbound := none }
      1 1000).map (fun r => r.quantityOnHand) = .ok (-2) ∧
    ((-2 : Int) < 0) := by
  decide

/-! ## C5 — outbox failure transition -/

/-- C5 — `markAsFailed` on a pending row increments the retry count by one,
records the error, and either stays `PENDING` with
`scheduled_at = now + 2 ^ newRetryCount` seconds (in milliseconds) while the
new count is below the row's maximum, or becomes `FAILED` once it reaches
it. -/
theorem outbox_markAsFailed_spec (m : OutboxMessage) (e : String) (now : Int)
    (_hst : m.status = .PENDING) :
    (markAsFailed m e now).retryCount = m.retryCount + 1 ∧
    (markAsFailed m e now).lastError = some e ∧
    (m.retryCount + 1 < m.maxRetries →
      (markAsFailed m e now).status = .PENDING ∧
      (markAsFailed m e now).scheduledAt =
        now + (2 : Int) ^ (m.retryCount + 1) * 1000) ∧
    (m.maxRetries ≤ m.retryCount + 1 →
      (markAsFailed m e now).status = .FAILED) := by
  refine ⟨rfl, rfl, ?_, ?_⟩ <;> intro h
  · simp [markAsFailed, Nat.not_le.mpr h]
  · simp [markAsFailed, h]

/-- A pending outbox row after one failed attempt. -/
def outboxRow : OutboxMessage :=
  { id := "OB-1", status := .PENDING, retryCount := 1, maxRetries := 5
    lastError := none, scheduledAt := 0, publishedAt := none }

/-- A pending outbox row one failure away from its maximum. -/
def outboxRowLast : OutboxMessage :=
  { outboxRow with id := "OB-2", retryCount := 4 }

/-- C5 witness at two concrete pending rows: retry 1 of max 5 stays
`PENDING` and is rescheduled 4 s out; retry 4 of max 5 becomes `FAILED`. -/
theorem outbox_markAsFailed_witness :
    (markAsFailed outboxRow "boom" 5000).retryCount = outboxRow.retryCount + 1 ∧
    (markAsFailed outboxRow "boom" 5000).lastError = some "boom" ∧
    (markAsFailed outboxRow "boom" 5000).status = .PENDING ∧
    (markAsFailed outboxRow "boom" 5000).scheduledAt =
      5000 + (2 : Int) ^ (outboxRow.retryCount + 1) * 1000 ∧
    (markAsFailed outboxRowLast "boom" 5000).status = .FAILED :=
  ⟨(outbox_markAsFailed_spec outboxRow "boom" 5000 rfl).1,
   (outbox_markAsFailed_spec outboxRow "boom" 5000 rfl).2.1,
   ((outbox_markAsFailed_spec outboxRow "boom" 5000 rfl).2.2.1 (by decide)).1,
   ((outbox_markAsFailed_spec outboxRow "boom" 5000 rfl).2.2.1 (by decide)).2,
   (outbox_markAsFailed_spec outboxRowLast "boom" 5000 rfl).2.2.2 (by decide)⟩

/-! ## C3 — consumer retry is unbounded -/

/-- C3 — the code bug: per delivery the consumer does inspect
`x-retry-count` and dispatch exactly as the claim describes (below 3:
delayed requeue after `2^retry` seconds; at 3 or more: dead-letter), but
nothing ever increments the header — a requeue redelivers the message with
its headers unchanged and no publisher sets `x-retry-count` — so an
always-failing message reads retry count 0 at every delivery and is requeued
with a 1-second delay forever: it never reaches the DLQ, and the claimed
bound of `max_retries_consumer + 1` total deliveries fails. -/
theorem consumer_retry_unbounded :
    (∀ r : Nat, r < 3 → handleFailure r = .requeueDelayedMs (2 ^ r * 1000)) ∧
    (∀ r : Nat, 3 ≤ r → handleFailure r = .deadLetter) ∧
    (∀ n : Nat, actionAtDelivery n = .requeueDelayedMs 1000) := by
  refine ⟨?_, ?_, ?_⟩
  · intro r hr
    simp [handleFailure, hr]
  · intro r hr
    simp [handleFailure, Nat.not_lt.mpr hr]
  · intro n
    have h : headerAtDelivery n = none := by
      induction n with
      | zero => rfl
      | succ k ih => simpa [headerAtDelivery] using ih
    simp [actionAtDelivery, h, retryCountOfHeader, handleFailure]

/-- C3 witness: retry 2 requeues after 4 s, retry 3 dead-letters, and the
always-failing message is still being requeued at its fifth delivery — one
more than the claimed `max_retries_consumer + 1 = 4` bound allows. -/
theorem consumer_retry_unbounded_witness :
    handleFailure 2 = .requeueDelayedMs 4000 ∧
    handleFailure 3 = .deadLetter ∧
    actionAtDelivery 4 = .requeueDelayedMs 1000 :=
  ⟨consumer_retry_unbounded.1 2 (by decide),
   consumer_retry_unbounded.2.1 3 (by decide),
   consumer_retry_unbounded.2.2 4⟩

/-! ## C7 — slotting ranking order -/

/-- C7 (amended: ties are **not** broken by pick-sequence — the scorer's
sort comparator is `(a, b) => b.score - a.score` alone, so equal scores keep
the candidates' relative input order under the stable sort) — the output of
`scoreLocations` is sorted in descending order of total score and is exactly
a permutation of the scored valid candidates; being a pure function of its
inputs, the ranking is deterministic for fixed inputs and weights. -/
theorem slotting_ranking (weights : SlottingWeights)
    (candidates : List SlottingCandidate) (context : SlottingContext) :
    (scoreLocations weights candidates context).Pairwise
      (fun a b : ScoredLocation => b.score ≤ a.score) ∧
    (scoreLocations weights candidates context).Perm
      ((candidates.filter (fun c => isLocationValid c.location context)).map
        (scoreCandidate weights context candidates)) := by
  constructor
  · unfold scoreLocations jsSortRat
    letI : IsTotal ScoredLocation (fun a b : ScoredLocation => b.score - a.score ≤ 0) :=
      ⟨fun a b => by
        rcases le_total b.score a.score with h | h
        · exact Or.inl (sub_nonpos.mpr h)
        · exact Or.inr (sub_nonpos.mpr h)⟩
    letI : IsTrans ScoredLocation (fun a b : ScoredLocation => b.score - a.score ≤ 0) :=
      ⟨fun a b c hab hbc =>
        sub_nonpos.mpr (le_trans (sub_nonpos.mp hbc) (sub_nonpos.mp hab))⟩
    exact (List.sorted_insertionSort _ _).imp (fun h => sub_nonpos.mp h)
  · unfold scoreLocations jsSortRat
    exact List.perm_insertionSort _ _

/-- An active ambient `PICK` location with pick sequence 9. -/
def slotLocHi : Location :=
  { id := "LOC-HI", zone := "Z", locType := .PICK, temperatureZone := .AMBIENT
    pickSequence := some 9, isActive := true, isHazmatCertified := false }

/-- The same location shape with pick sequence 1. -/
def slotLocLo : Location :=
  { slotLocHi with id := "LOC-LO", pickSequence := some 1 }

/-- A candidate at `slotLocHi`. -/
def slotCandHi : SlottingCandidate :=
  { location := slotLocHi, currentUtilization := 0, distanceFromDock := 5
    pickFrequency := 50 }

/-- The identically-scored candidate at `slotLocLo`. -/
def slotCandLo : SlottingCandidate :=
  { slotCandHi with location := slotLocLo }

/-- A neutral context (no ABC class, no temperature requirement, not
hazmat). -/
def slotCtx : SlottingContext :=
  { productAbcClass := none, temperatureRequired := none, isHazmat := false
    quantityToStore := 1, preferredZones := none, excludedLocations := none }

/-- C7 counterexample: two candidates with identical scores (11/20 each
under the default weights) keep their input order — the location with pick
sequence 9 is ranked before the one with pick sequence 1, so the claimed
pick-sequence tie-break is false (the scorer never reads `pickSequence`). -/
theorem slotting_tiebreak_counterexample :
    slotLocHi.pickSequence = some 9 ∧
    slotLocLo.pickSequence = some 1 ∧
    (scoreLocations DEFAULT_SLOTTING_WEIGHTS [slotCandHi, slotCandLo] slotCtx).map
      (fun s => (s.location.id, s.score)) =
      [("LOC-HI", 11/20), ("LOC-LO", 11/20)] := by
  refine ⟨rfl, rfl, ?_⟩
  norm_num [scoreLocations, jsSortRat, List.insertionSort, List.orderedInsert,
    scoreCandidate, isLocationValid, DEFAULT_SLOTTING_WEIGHTS, slotCandHi,
    slotCandLo, slotLocHi, slotLocLo, slotCtx, maxDistanceFromDock,
    scoreProximity, scoreAbcVelocity, scoreCapacity, scoreTemperature,
    scoreFefo, scoreHazard]

/-! ## C4 — the harness does not rewrite envelope fields -/

/-- With `continueOnError = true` (the default) the batch loop runs every
agent in order. -/
theorem executeAgentBatches_all (cfg : AgentRunnerConfig) (event : EventEnvelope)
    (context : AgentContext) (hcfg : cfg.continueOnError = true) :
    ∀ agents : List Agent,
      executeAgentBatches cfg event context agents =
        agents.map (fun ag => executeAgent ag event context) := by
  have hgen : ∀ (n : Nat) (agents : List Agent), agents.length ≤ n →
      executeAgentBatches cfg event context agents =
        agents.map (fun ag => executeAgent ag event context) := by
    intro n
    induction n with
    | zero =>
      intro ags h
      cases ags with
      | nil => simp [executeAgentBatches]
      | cons a rest => simp at h
    | succ k ih =>
      intro ags h
      cases ags with
      | nil => simp [executeAgentBatches]
      | cons a rest =>
        rw [executeAgentBatches]
        simp only [hcfg, Bool.not_true, Bool.false_and, Bool.false_eq_true,
          if_false]
        rw [ih (rest.drop (cfg.concurrency - 1))
          (by simp only [List.length_drop]; simp at h; omega)]
        rw [← List.map_append, List.cons_append, List.take_append_drop]
  exact fun agents => hgen agents.length agents (le_refl _)

/-- C4 (amended) — the runtime performs no defensive rewriting: the
envelopes handed back by `executeForEvent` are exactly the concatenation of
what the agents returned, with `tenant_id`, `correlation_id` and
`causation_id` untouched; the only place the inbound's `event_id` is stamped
is the `x-causation-id` **message header** written by the consumer when
publishing a derived envelope, whose body is serialized unchanged. -/
theorem runtime_passthrough (reg : AgentRegistry) (cfg : AgentRunnerConfig)
    (event : EventEnvelope) (context : AgentContext)
    (hcfg : cfg.continueOnError = true) :
    (executeForEvent reg cfg event context).eventsToPublish =
      (reg.getAgentsForEvent event.event_type).flatMap
        (fun ag => (ag.run event context).eventsToPublish.getD []) ∧
    (∀ inbound derived : EventEnvelope,
      (publishDerived inbound derived).hCausationId = inbound.event_id ∧
      (publishDerived inbound derived).body = derived ∧
      (publishDerived inbound derived).hCorrelationId = derived.correlation_id ∧
      (publishDerived inbound derived).hTenantId = derived.tenant_id) := by
  constructor
  · unfold executeForEvent
    rcases hags : reg.getAgentsForEvent event.event_type with _ | ⟨a0, rest⟩
    · simp
    · simp only [List.isEmpty_cons, Bool.false_eq_true, if_false]
      rw [executeAgentBatches_all cfg event context hcfg]
      simp [executeAgent, List.flatMap_map]
  · intro inbound derived
    exact ⟨rfl, rfl, rfl, rfl⟩

/-- The envelope a rogue agent fabricates with a foreign tenant and
correlation id and no causation id. -/
def rogueEnvelope : EventEnvelope :=
  { event_id := "e-2", event_type := "Evil.Event", occurred_at := "2024-01-01T00:00:00Z"
    schema_version := "1.0", correlation_id := "c-evil", causation_id := none
    actor := ⟨"AGENT", "rogue", none⟩, tenant_id := "t-evil", warehouse_id := none
    payload := "{}" }

/-- The inbound envelope being processed. -/
def inboundC4 : EventEnvelope :=
  { event_id := "e-1", event_type := "Sales.OrderPlaced"
    occurred_at := "2024-01-01T00:00:00Z", schema_version := "1.0"
    correlation_id := "c-good", causation_id := none
    actor := ⟨"USER", "u-1", none⟩, tenant_id := "t-good", warehouse_id := none
    payload := "{}" }

/-- An agent that ignores its context and returns `rogueEnvelope`. -/
def rogueAgent : Agent :=
  { name := "RogueAgent", description := "returns a foreign-tenant envelope"
    subscribesTo := ["Sales.OrderPlaced"]
    run := fun _ _ =>
      { success := true, message := "ok", data := none
        eventsToPublish := some [rogueEnvelope], errors := none } }

/-- A registry holding only the rogue agent. -/
def c4Registry : AgentRegistry := AgentRegistry.empty.register rogueAgent

/-- The context the consumer passes, built from the inbound envelope. -/
def c4Context : AgentContext :=
  { tenantId := inboundC4.tenant_id, warehouseId := inboundC4.warehouse_id
    correlationId := inboundC4.correlation_id }

/-- C4 counterexample: the envelope collected by the runtime still carries
the rogue agent's `tenant_id = "t-evil"`, `correlation_id = "c-evil"` and
`causation_id = none`, not the inbound's `"t-good"` / `"c-good"` /
`event_id = "e-1"` — no harness rewriting happens. -/
theorem runtime_no_rewrite_counterexample :
    (executeForEvent c4Registry defaultRunnerConfig inboundC4 c4Context).eventsToPublish.map
      (fun e => (e.tenant_id, e.correlation_id, e.causation_id)) =
      [("t-evil", "c-evil", none)] ∧
    inboundC4.tenant_id = "t-good" ∧
    inboundC4.correlation_id = "c-good" ∧
    inboundC4.event_id = "e-1" := by
  refine ⟨?_, rfl, rfl, rfl⟩
  rw [show (executeForEvent c4Registry defaultRunnerConfig inboundC4
      c4Context).eventsToPublish =
    (executeAgentBatches defaultRunnerConfig inboundC4 c4Context
      (c4Registry.getAgentsForEvent inboundC4.event_type)).flatMap
        (fun r => r.result.eventsToPublish.getD []) from rfl]
  rw [show c4Registry.getAgentsForEvent inboundC4.event_type = [rogueAgent] from rfl]
  simp [executeAgentBatches.eq_def, executeAgent, rogueAgent, rogueEnvelope]

/-- C4 witness: at the concrete rogue-agent scenario the theorem gives the
pass-through equation and the header stamping facts for the concrete
inbound/derived pair. -/
theorem runtime_passthrough_witness :
    defaultRunnerConfig.continueOnError = true ∧
    (executeForEvent c4Registry defaultRunnerConfig inboundC4 c4Context).eventsToPublish =
      (c4Registry.getAgentsForEvent inboundC4.event_type).flatMap
        (fun ag => (ag.run inboundC4 c4Context).eventsToPublish.getD []) ∧
    ((publishDerived inboundC4 rogueEnvelope).hCausationId = inboundC4.event_id ∧
      (publishDerived inboundC4 rogueEnvelope).body = rogueEnvelope ∧
      (publishDerived inboundC4 rogueEnvelope).hCorrelationId =
        rogueEnvelope.correlation_id ∧
      (publishDerived inboundC4 rogueEnvelope).hTenantId = rogueEnvelope.tenant_id) :=
  ⟨rfl,
   (runtime_passthrough c4Registry defaultRunnerConfig inboundC4 c4Context rfl).1,
   (runtime_passthrough c4Registry defaultRunnerConfig inboundC4 c4Context rfl).2
     inboundC4 rogueEnvelope⟩

/-! ## C10 — re-registration keeps stale subscriptions -/

/-- `addSubscription` with a fixed name keeps the invariant that every
subscription entry holds exactly `[n]`. -/
theorem addSubscription_entries {n : String} :
    ∀ (subs : List (String × List String)),
      (∀ p ∈ subs, p.2 = [n]) →
      ∀ (t : String), ∀ p ∈ addSubscription subs t n, p.2 = [n] := by
  intro subs
  induction subs with
  | nil =>
    intro _ t p hp
    simp only [addSubscription, List.mem_singleton] at hp
    simp [hp]
  | cons q rest ih =>
    intro hinv t p hp
    obtain ⟨t0, ns⟩ := q
    by_cases ht : t0 = t
    · simp only [addSubscription, if_pos ht] at hp
      rcases List.mem_cons.mp hp with rfl | hrest
      · have hns : ns = [n] := hinv (t0, ns) (List.mem_cons_self _ _)
        simp [hns]
      · exact hinv _ (List.mem_cons_of_mem _ hrest)
    · simp only [addSubscription, if_neg ht] at hp
      rcases List.mem_cons.mp hp with rfl | hrest
      · exact hinv _ (List.mem_cons_self _ _)
      · exact ih (fun q hq => hinv q (List.mem_cons_of_mem _ hq)) t p hrest

/-- Lookup after `addSubscription` under the single-name invariant. -/
theorem addSubscription_lookup {n : String} :
    ∀ (subs : List (String × List String)),
      (∀ p ∈ subs, p.2 = [n]) →
      ∀ (t t' : String),
        lookupAssoc (addSubscription subs t n) t' =
          if t' = t then some [n] else lookupAssoc subs t' := by
  intro subs
  induction subs with
  | nil =>
    intro _ t t'
    by_cases h : t' = t
    · subst h
      simp [addSubscription, lookupAssoc]
    · simp [addSubscription, lookupAssoc, h, Ne.symm h]
  | cons q rest ih =>
    intro hinv t t'
    obtain ⟨t0, ns⟩ := q
    have hns : ns = [n] := hinv (t0, ns) (List.mem_cons_self _ _)
    have hinv' : ∀ p ∈ rest, (p : String × List String).2 = [n] :=
      fun q hq => hinv q (List.mem_cons_of_mem _ hq)
    by_cases ht : t0 = t
    · subst ht
      by_cases ht' : t' = t0 <;>
        simp [addSubscription, lookupAssoc, ht', hns]
    · by_cases ht' : t0 = t'
      · subst ht'
        simp [addSubscription, if_neg ht, lookupAssoc, ht]
      · simp [addSubscription, if_neg ht, lookupAssoc, ht', ih hinv' t t']

/-- Folding `addSubscription` over a subscription list: all entries hold
`[n]`, and lookups answer `some [n]` exactly on the types seen so far. -/
theorem foldl_addSubscription {n : String} :
    ∀ (l : List String) (subs : List (String × List String)),
      (∀ p ∈ subs, p.2 = [n]) →
      (∀ p ∈ List.foldl (fun s t => addSubscription s t n) subs l, p.2 = [n]) ∧
      (∀ t, lookupAssoc (List.foldl (fun s t => addSubscription s t n) subs l) t =
        if t ∈ l then some [n] else lookupAssoc subs t) := by
  intro l
  induction l with
  | nil =>
    intro subs hinv
    exact ⟨hinv, fun t => by simp⟩
  | cons t0 l' ih =>
    intro subs hinv
    have hinv' := addSubscription_entries subs hinv t0
    obtain ⟨hall, hlook⟩ := ih (addSubscription subs t0 n) hinv'
    refine ⟨hall, fun t => ?_⟩
    rw [List.foldl_cons, hlook t, addSubscription_lookup subs hinv t0 t]
    by_cases h1 : t ∈ l' <;> by_cases h2 : t = t0 <;>
      simp [h1, h2, List.mem_cons]

/-- `filterMap` over a lookup into the empty map yields nothing. -/
theorem filterMap_lookup_nil (l : List String) :
    l.filterMap (lookupAssoc ([] : List (String × Agent))) = [] := by
  induction l with
  | nil => rfl
  | cons x xs ih => simp [List.filterMap_cons, lookupAssoc, ih]

/-- C10 — registering `b` over an already-registered agent `a` of the same
name replaces the agent entry but leaves `a`'s subscription-index entries in
place; since the index stores only names, `getAgentsForEvent` then resolves
every event type in the union of `a`'s and `b`'s subscription lists to `b` —
including the types only `a` subscribed to — until the name is unregistered,
after which every lookup returns no agents (the stale index names no longer
resolve). -/
theorem registry_stale_subscriptions (a b : Agent) (hname : a.name = b.name) :
    ((AgentRegistry.empty.register a).register b).getAgent b.name = some b ∧
    (∀ t, t ∈ a.subscribesTo ∨ t ∈ b.subscribesTo →
      ((AgentRegistry.empty.register a).register b).getAgentsForEvent t = [b]) ∧
    (∀ t, AgentRegistry.getAgentsForEvent
      (((AgentRegistry.empty.register a).register b).unregister b.name) t = []) := by
  have hagents1 : (AgentRegistry.empty.register a).agents = [(a.name, a)] := rfl
  have hagents2 : ((AgentRegistry.empty.register a).register b).agents = [(b.name, b)] := by
    simp [AgentRegistry.register, hagents1, setAssoc, hname]
  obtain ⟨hinv1, hlook1⟩ :=
    foldl_addSubscription (n := a.name) a.subscribesTo [] (by simp)
  have hinv1' : ∀ p ∈ (AgentRegistry.empty.register a).eventSubscriptions,
      (p : String × List String).2 = [b.name] := by
    intro p hp
    rw [← hname]
    exact hinv1 p hp
  obtain ⟨hinv2, hlook2⟩ :=
    foldl_addSubscription (n := b.name) b.subscribesTo
      (AgentRegistry.empty.register a).eventSubscriptions hinv1'
  have hsubs2 : ∀ t,
      lookupAssoc ((AgentRegistry.empty.register a).register b).eventSubscriptions t =
        if t ∈ b.subscribesTo ∨ t ∈ a.subscribesTo then some [b.name] else none := by
    intro t
    have e2 : ((AgentRegistry.empty.register a).register b).eventSubscriptions =
        List.foldl (fun s u => addSubscription s u b.name)
          (AgentRegistry.empty.register a).eventSubscriptions b.subscribesTo := rfl
    have e1 : (AgentRegistry.empty.register a).eventSubscriptions =
        List.foldl (fun s u => addSubscription s u a.name) [] a.subscribesTo := rfl
    rw [e2, hlook2 t, e1, hlook1 t]
    by_cases hb : t ∈ b.subscribesTo <;> by_cases ha : t ∈ a.subscribesTo <;>
      simp [hb, ha, hname, lookupAssoc]
  have hlookup_b : lookupAssoc ((AgentRegistry.empty.register a).register b).agents
      b.name = some b := by
    simp [hagents2, lookupAssoc]
  refine ⟨hlookup_b, ?_, ?_⟩
  · intro t ht
    have hcond : t ∈ b.subscribesTo ∨ t ∈ a.subscribesTo := ht.symm
    have hspec := hsubs2 t
    rw [if_pos hcond] at hspec
    have hwild := hsubs2 "*"
    unfold AgentRegistry.getAgentsForEvent
    rw [hspec]
    by_cases hw : ("*" ∈ b.subscribesTo ∨ "*" ∈ a.subscribesTo)
    · rw [if_pos hw] at hwild
      rw [hwild]
      simp [unionNames, hagents2, lookupAssoc, List.filterMap_cons]
    · rw [if_neg hw] at hwild
      rw [hwild]
      simp [unionNames, hagents2, lookupAssoc, List.filterMap_cons]
  · intro t
    have hag3 : (((AgentRegistry.empty.register a).register b).unregister b.name).agents
        = [] := by
      simp only [AgentRegistry.unregister, hagents2]
      simp [lookupAssoc, deleteAssoc]
    unfold AgentRegistry.getAgentsForEvent
    rw [hag3]
    exact filterMap_lookup_nil _

/-- The first registration of the shared name: subscribes to `TA` and
`TBOTH`. -/
def agentV1 : Agent :=
  { name := "StockAgent", description := "first registration"
    subscribesTo := ["TA", "TBOTH"]
    run := fun _ _ =>
      { success := true, message := "v1", data := none
        eventsToPublish := none, errors := none } }

/-- The replacing registration of the same name: subscribes to `TB` and
`TBOTH`. -/
def agentV2 : Agent :=
  { agentV1 with description := "second registration", subscribesTo := ["TB", "TBOTH"] }

/-- C10 witness: after re-registration, `TA` — which only the replaced agent
subscribed to — still resolves, and to the new agent; unregistering empties
every lookup. -/
theorem registry_stale_subscriptions_witness :
    agentV1.name = agentV2.name ∧
    ((AgentRegistry.empty.register agentV1).register agentV2).getAgent agentV2.name =
      some agentV2 ∧
    ("TA" ∈ agentV1.subscribesTo ∨ "TA" ∈ agentV2.subscribesTo) ∧
    ((AgentRegistry.empty.register agentV1).register agentV2).getAgentsForEvent "TA" =
      [agentV2] ∧
    (((AgentRegistry.empty.register agentV1).register agentV2).unregister
      agentV2.name).getAgentsForEvent "TA" = [] :=
  ⟨rfl,
   (registry_stale_subscriptions agentV1 agentV2 rfl).1,
   Or.inl (by decide),
   (registry_stale_subscriptions agentV1 agentV2 rfl).2.1 "TA" (Or.inl (by decide)),
   (registry_stale_subscriptions agentV1 agentV2 rfl).2.2 "TA"⟩

end StockOS
